import Mathlib

/-!
Verification of the confusion-matrix construction in
`evaluate_species_prediction.py` (CAFA_evaluation).

Shallow embedding conventions:
* Python dicts become association lists (`List (key × value)`); Python dict
  lookup `d.get(k)` becomes `dictGet`, which returns the value attached to the
  first matching key.  Python dict keys are unique, so theorems that need
  key-uniqueness take a `Nodup` hypothesis on the key list.
* Python sets of term identifiers become `Finset String`.
* Confidence scores and thresholds (Python floats compared with `>=`) become
  exact rationals `ℚ`.
* The pandas DataFrame becomes a list of rows; the composite
  `(protein, threshold)` MultiIndex key is carried on every row.  An
  assignment through `.loc[protein, threshold]` becomes an update of every row
  carrying that key.
-/

namespace CAFA

/-- A protein's term → confidence-score mapping (inner dict of the prediction
JSON). -/
abbrev ScoreMap := List (String × ℚ)

/-- The prediction JSON: protein identifier → score mapping. -/
abbrev PredictionDict := List (String × ScoreMap)

/-- Python `d.get(k)`: the value of the first entry with key `k`, if any. -/
def dictGet {α : Type} (d : List (String × α)) (k : String) : Option α :=
  (d.find? fun kv => kv.1 == k).map Prod.snd

/-- The benchmark JSON object.  `benchmark_ontology_term_count` is required
(the populator performs arithmetic on it); the remaining metadata fields are
tolerated absent (`None`) and merely copied into the output, matching
`benchmark_dict.get(...)`. -/
structure BenchmarkDict where
  benchmark_ontology : Option String
  benchmark_ontology_term_count : Int
  benchmark_taxon : Option String
  benchmark_taxon_id : Option Int
  protein_annotations : List (String × List String)

/-- Result of `get_confusion_matrix_terms`: the three term sets. -/
structure CMTerms where
  TP : Finset String
  FP : Finset String
  FN : Finset String

/-- `get_confusion_matrix_terms(predicted_terms, benchmark_terms)`:
TP = intersection, FP = predicted minus benchmark, FN = benchmark minus
predicted. -/
def get_confusion_matrix_terms (predicted_terms benchmark_terms : Finset String) :
    CMTerms :=
  { TP := predicted_terms ∩ benchmark_terms
    FP := predicted_terms \ benchmark_terms
    FN := benchmark_terms \ predicted_terms }

/-- Result of `calculate_confusion_matrix`: the three counts. -/
structure CMCounts where
  TP : ℕ
  FP : ℕ
  FN : ℕ
deriving DecidableEq, Repr

/-- `calculate_confusion_matrix(predicted_terms, benchmark_terms)`: the
cardinalities of the three sets from `get_confusion_matrix_terms`. -/
def calculate_confusion_matrix (predicted_terms benchmark_terms : Finset String) :
    CMCounts :=
  let cm_terms := get_confusion_matrix_terms predicted_terms benchmark_terms
  { TP := cm_terms.TP.card
    FP := cm_terms.FP.card
    FN := cm_terms.FN.card }

/-- One row of the DataFrame built by
`initialize_proteins_and_thresholds_dataframe`: the composite
`(protein, threshold)` key plus the four integer count columns. -/
structure InitRow where
  protein : String
  threshold : ℚ
  tp : ℕ
  fp : ℕ
  fn : ℕ
  tn : Int
deriving DecidableEq, Repr

/-- `initialize_proteins_and_thresholds_dataframe(proteins, thresholds)`:
`len(proteins) * len(thresholds)` zero rows; row `i` receives
`proteins[benchmark_protein_index]` and `thresholds[i % len(thresholds)]`,
where `benchmark_protein_index` starts at `-1` and is incremented every time
`i % len(thresholds) == 0`, hence equals `i / len(thresholds)`. -/
def initialize_proteins_and_thresholds_dataframe
    (proteins : List String) (thresholds : List ℚ) : List InitRow :=
  (List.range (proteins.length * thresholds.length)).map fun i =>
    { protein := proteins.getD (i / thresholds.length) ""
      threshold := thresholds.getD (i % thresholds.length) 0
      tp := 0, fp := 0, fn := 0, tn := 0 }

/-- The set comprehension `{k for k, v in predicted_terms.items() if v >= threshold}`
from the populator loop body. -/
def predicted_at (predicted_terms : ScoreMap) (threshold : ℚ) : Finset String :=
  ((predicted_terms.filter fun kv => kv.2 ≥ threshold).map Prod.fst).toFinset

/-- `sorted(list({threshold for protein in prediction_dict.values()
for threshold in protein.values()}))`: the distinct confidence values across
all proteins, sorted ascending. -/
def distinct_prediction_thresholds (prediction_dict : PredictionDict) : List ℚ :=
  ((prediction_dict.flatMap fun protein => protein.2.map Prod.snd).dedup).insertionSort
    (· ≤ ·)

/-- The body of the populator loop for one `(protein, threshold)` cell:
predictions limited by the threshold, benchmark list turned into a set,
`calculate_confusion_matrix`, and
`true_negative = benchmark_ontology_term_count - sum(conf_matrix.values())`. -/
def scoreCell (prediction_dict : PredictionDict)
    (benchmark_annotations : List (String × List String))
    (benchmark_ontology_term_count : Int) (protein : String) (threshold : ℚ) :
    CMCounts × Int :=
  let predicted_terms := (dictGet prediction_dict protein).getD []
  let predicted_annotations := predicted_at predicted_terms threshold
  let benchmark_term_set := ((dictGet benchmark_annotations protein).getD []).toFinset
  let conf_matrix := calculate_confusion_matrix predicted_annotations benchmark_term_set
  let true_negative := benchmark_ontology_term_count
    - ((conf_matrix.TP + conf_matrix.FP + conf_matrix.FN : ℕ) : Int)
  (conf_matrix, true_negative)

/-- Write one cell's counts into a row (the four
`protein_and_threshold_df.loc[protein, threshold].xx = ...` assignments). -/
def writeCell (prediction_dict : PredictionDict)
    (benchmark_annotations : List (String × List String))
    (benchmark_ontology_term_count : Int) (r : InitRow) : InitRow :=
  let c := scoreCell prediction_dict benchmark_annotations
    benchmark_ontology_term_count r.protein r.threshold
  { r with tp := c.1.TP, fp := c.1.FP, fn := c.1.FN, tn := c.2 }

/-- `.loc[protein, threshold]` assignment: update every row carrying the
composite key `(protein, threshold)`. -/
def updateAt (prediction_dict : PredictionDict)
    (benchmark_annotations : List (String × List String))
    (benchmark_ontology_term_count : Int) (threshold : ℚ) (protein : String)
    (rows : List InitRow) : List InitRow :=
  rows.map fun r =>
    if r.protein = protein ∧ r.threshold = threshold then
      writeCell prediction_dict benchmark_annotations benchmark_ontology_term_count r
    else r

/-- The populator's nested `for threshold ... for protein ...` loop, fed with
the flattened list of `(threshold, protein)` pairs in iteration order. -/
def populate (prediction_dict : PredictionDict)
    (benchmark_annotations : List (String × List String))
    (benchmark_ontology_term_count : Int) (pairs : List (ℚ × String))
    (rows : List InitRow) : List InitRow :=
  match pairs with
  | [] => rows
  | (t, p) :: rest =>
      populate prediction_dict benchmark_annotations benchmark_ontology_term_count
        rest
        (updateAt prediction_dict benchmark_annotations benchmark_ontology_term_count
          t p rows)

/-- One row of the final DataFrame, after the three metadata columns
(`ontology`, `taxon_id`, `taxon`) are inserted. -/
structure Row where
  protein : String
  threshold : ℚ
  ontology : Option String
  taxon_id : Option Int
  taxon : Option String
  tp : ℕ
  fp : ℕ
  fn : ℕ
  tn : Int
deriving DecidableEq, Repr

/-- `get_confusion_matrix_dataframe(prediction_dict, benchmark_dict)`:
extract the sorted distinct thresholds, take the benchmark protein list,
initialize the table, run the populator loop, and append the metadata
columns. -/
def get_confusion_matrix_dataframe (prediction_dict : PredictionDict)
    (benchmark_dict : BenchmarkDict) : List Row :=
  let thresholds := distinct_prediction_thresholds prediction_dict
  let benchmark_annotations := benchmark_dict.protein_annotations
  let benchmark_proteins := benchmark_annotations.map Prod.fst
  let df := initialize_proteins_and_thresholds_dataframe benchmark_proteins thresholds
  let pairs := thresholds.flatMap fun t => benchmark_proteins.map fun p => (t, p)
  let filled := populate prediction_dict benchmark_annotations
    benchmark_dict.benchmark_ontology_term_count pairs df
  filled.map fun r =>
    { protein := r.protein
      threshold := r.threshold
      ontology := benchmark_dict.benchmark_ontology
      taxon_id := benchmark_dict.benchmark_taxon_id
      taxon := benchmark_dict.benchmark_taxon
      tp := r.tp, fp := r.fp, fn := r.fn, tn := r.tn }

end CAFA

namespace CAFA

/-! ### Per-row characterization of the populator loop -/

/-- The effect of the populator loop on a single row: each `(threshold, protein)`
iteration rewrites the row when it carries that key. -/
def cellFold (prediction_dict : PredictionDict)
    (benchmark_annotations : List (String × List String))
    (benchmark_ontology_term_count : Int) (pairs : List (ℚ × String))
    (r : InitRow) : InitRow :=
  match pairs with
  | [] => r
  | (t, p) :: rest =>
      cellFold prediction_dict benchmark_annotations benchmark_ontology_term_count rest
        (if r.protein = p ∧ r.threshold = t then
          writeCell prediction_dict benchmark_annotations benchmark_ontology_term_count r
        else r)

lemma cellFold_cons (pd : PredictionDict) (ba : List (String × List String))
    (cnt : Int) (t : ℚ) (p : String) (rest : List (ℚ × String)) (r : InitRow) :
    cellFold pd ba cnt ((t, p) :: rest) r =
      cellFold pd ba cnt rest
        (if r.protein = p ∧ r.threshold = t then writeCell pd ba cnt r else r) := rfl

lemma writeCell_protein (pd : PredictionDict) (ba : List (String × List String))
    (cnt : Int) (r : InitRow) : (writeCell pd ba cnt r).protein = r.protein := rfl

lemma writeCell_threshold (pd : PredictionDict) (ba : List (String × List String))
    (cnt : Int) (r : InitRow) : (writeCell pd ba cnt r).threshold = r.threshold := rfl

lemma writeCell_writeCell (pd : PredictionDict) (ba : List (String × List String))
    (cnt : Int) (r : InitRow) :
    writeCell pd ba cnt (writeCell pd ba cnt r) = writeCell pd ba cnt r := rfl

/-- Running the populator is the same as applying `cellFold` to every row. -/
lemma populate_eq_map (pd : PredictionDict) (ba : List (String × List String))
    (cnt : Int) (pairs : List (ℚ × String)) (rows : List InitRow) :
    populate pd ba cnt pairs rows = rows.map (cellFold pd ba cnt pairs) := by
  induction pairs generalizing rows with
  | nil => simp [populate, cellFold]
  | cons q rest ih =>
      obtain ⟨t, p⟩ := q
      rw [populate, updateAt, ih, List.map_map]
      exact List.map_congr_left fun r _ => rfl

lemma cellFold_or (pd : PredictionDict) (ba : List (String × List String))
    (cnt : Int) (pairs : List (ℚ × String)) (r : InitRow) :
    cellFold pd ba cnt pairs r = r ∨
      cellFold pd ba cnt pairs r = writeCell pd ba cnt r := by
  induction pairs generalizing r with
  | nil => exact Or.inl rfl
  | cons q rest ih =>
      obtain ⟨t, p⟩ := q
      rw [cellFold_cons]
      by_cases h : r.protein = p ∧ r.threshold = t
      · rw [if_pos h]
        rcases ih (writeCell pd ba cnt r) with h1 | h1
        · exact Or.inr h1
        · exact Or.inr (h1.trans (writeCell_writeCell pd ba cnt r))
      · rw [if_neg h]
        exact ih r

lemma cellFold_writeCell (pd : PredictionDict) (ba : List (String × List String))
    (cnt : Int) (pairs : List (ℚ × String)) (r : InitRow) :
    cellFold pd ba cnt pairs (writeCell pd ba cnt r) = writeCell pd ba cnt r := by
  rcases cellFold_or pd ba cnt pairs (writeCell pd ba cnt r) with h | h
  · exact h
  · exact h.trans (writeCell_writeCell pd ba cnt r)

/-- A row whose key occurs among the loop's `(threshold, protein)` pairs ends
up holding exactly the values computed for its own key. -/
lemma cellFold_mem (pd : PredictionDict) (ba : List (String × List String))
    (cnt : Int) (pairs : List (ℚ × String)) (t : ℚ) (p : String) :
    ∀ r : InitRow, (t, p) ∈ pairs → r.protein = p → r.threshold = t →
      cellFold pd ba cnt pairs r = writeCell pd ba cnt r := by
  induction pairs with
  | nil =>
      intro r hmem
      cases hmem
  | cons q rest ih =>
      obtain ⟨t', p'⟩ := q
      intro r hmem hp ht
      rw [cellFold_cons]
      by_cases h : r.protein = p' ∧ r.threshold = t'
      · rw [if_pos h]
        exact cellFold_writeCell pd ba cnt rest r
      · rw [if_neg h]
        rcases List.mem_cons.mp hmem with heq | hrest
        · injection heq with h1 h2
          exact absurd ⟨hp.trans h2, ht.trans h1⟩ h
        · exact ih r hrest hp ht

/-! ### The initializer in flatMap form -/

lemma map_getD_range {α : Type} (l : List α) (d : α) :
    (List.range l.length).map (fun i => l.getD i d) = l := by
  induction l with
  | nil => rfl
  | cons x xs ih =>
      rw [List.length_cons, List.range_succ_eq_map, List.map_cons, List.map_map,
        List.getD_cons_zero]
      have h : ∀ i ∈ List.range xs.length,
          ((fun i => (x :: xs).getD i d) ∘ Nat.succ) i = xs.getD i d := fun i _ => by
        simp [Function.comp, Nat.succ_eq_add_one, List.getD_cons_succ]
      rw [List.map_congr_left h, ih]

/-- The index arithmetic of the initializer loop realizes the
protein-outer / threshold-inner nesting. -/
lemma initialize_eq_flatMap (proteins : List String) (thresholds : List ℚ) :
    initialize_proteins_and_thresholds_dataframe proteins thresholds
      = proteins.flatMap fun p => thresholds.map fun t =>
          { protein := p, threshold := t, tp := 0, fp := 0, fn := 0, tn := 0 } := by
  rcases Nat.eq_zero_or_pos thresholds.length with h0 | hpos
  · obtain rfl := List.length_eq_zero.mp h0
    simp [initialize_proteins_and_thresholds_dataframe]
  · induction proteins with
    | nil => simp [initialize_proteins_and_thresholds_dataframe]
    | cons p ps ih =>
        rw [initialize_proteins_and_thresholds_dataframe, List.length_cons,
          Nat.succ_mul, Nat.add_comm (ps.length * thresholds.length),
          List.range_add, List.map_append, List.flatMap_cons]
        congr 1
        · rw [show (thresholds.map fun t =>
              ({ protein := p, threshold := t, tp := 0, fp := 0, fn := 0, tn := 0 } :
                InitRow)) =
              ((List.range thresholds.length).map fun i =>
                thresholds.getD i 0).map (fun t =>
                  { protein := p, threshold := t, tp := 0, fp := 0, fn := 0, tn := 0 })
            from by rw [map_getD_range]]
          rw [List.map_map]
          refine List.map_congr_left fun i hi => ?_
          have hlt : i < thresholds.length := List.mem_range.mp hi
          simp only [Function.comp]
          rw [Nat.div_eq_of_lt hlt, Nat.mod_eq_of_lt hlt, List.getD_cons_zero]
        · rw [List.map_map, ← ih]
          rw [initialize_proteins_and_thresholds_dataframe]
          refine List.map_congr_left fun i _ => ?_
          simp only [Function.comp]
          rw [Nat.add_comm thresholds.length i, Nat.add_div_right i hpos,
            Nat.add_mod_right i thresholds.length, List.getD_cons_succ]

end CAFA

namespace CAFA

lemma flatMap_congr {α β : Type} {l : List α} {f g : α → List β}
    (h : ∀ a ∈ l, f a = g a) : l.flatMap f = l.flatMap g := by
  induction l with
  | nil => rfl
  | cons x xs ih =>
      rw [List.flatMap_cons, List.flatMap_cons, h x (List.mem_cons_self x xs),
        ih fun a ha => h a (List.mem_cons_of_mem x ha)]

/-- The fully evaluated output row for one `(protein, threshold)` cell. -/
def finalRow (prediction_dict : PredictionDict) (benchmark_dict : BenchmarkDict)
    (p : String) (t : ℚ) : Row :=
  let c := scoreCell prediction_dict benchmark_dict.protein_annotations
    benchmark_dict.benchmark_ontology_term_count p t
  { protein := p, threshold := t
    ontology := benchmark_dict.benchmark_ontology
    taxon_id := benchmark_dict.benchmark_taxon_id
    taxon := benchmark_dict.benchmark_taxon
    tp := c.1.TP, fp := c.1.FP, fn := c.1.FN, tn := c.2 }

/-- Closed form of `get_confusion_matrix_dataframe`: one row per benchmark
protein (outer) and extracted threshold (inner), each holding the values
computed for its own key. -/
theorem get_confusion_matrix_dataframe_eq (pred : PredictionDict)
    (bench : BenchmarkDict) :
    get_confusion_matrix_dataframe pred bench
      = (bench.protein_annotations.map Prod.fst).flatMap fun p =>
          (distinct_prediction_thresholds pred).map fun t =>
            finalRow pred bench p t := by
  simp only [get_confusion_matrix_dataframe]
  rw [populate_eq_map, initialize_eq_flatMap, List.map_map, List.map_flatMap]
  refine flatMap_congr fun p hp => ?_
  rw [List.map_map]
  refine List.map_congr_left fun t ht => ?_
  have hmem : (t, p) ∈ (distinct_prediction_thresholds pred).flatMap
      fun t => (bench.protein_annotations.map Prod.fst).map fun p => (t, p) :=
    List.mem_flatMap.mpr ⟨t, ht, List.mem_map.mpr ⟨p, hp, rfl⟩⟩
  simp only [Function.comp_apply]
  rw [cellFold_mem _ _ _ _ t p _ hmem rfl rfl]
  rfl

end CAFA

namespace CAFA

/-- Concrete prediction input used by witnesses (the spec's Scenario A plus a
second benchmark-only protein). -/
def predW : PredictionDict := [("P1", [("GO:1", 1), ("GO:2", 2)])]

/-- Concrete benchmark input used by witnesses. -/
def benchW : BenchmarkDict :=
  { benchmark_ontology := some "X"
    benchmark_ontology_term_count := 10
    benchmark_taxon := some "T"
    benchmark_taxon_id := some 1
    protein_annotations := [("P1", ["GO:1", "GO:3"]), ("P2", ["GO:4"])] }

/-- Claim C1: every row of the table returned by
`get_confusion_matrix_dataframe` satisfies
`tp + fp + fn + tn = benchmark_ontology_term_count`, `tn` being derived as the
complement of `tp + fp + fn`. -/
theorem row_sum_invariant (pred : PredictionDict) (bench : BenchmarkDict) :
    ∀ r ∈ get_confusion_matrix_dataframe pred bench,
      (r.tp : Int) + r.fp + r.fn + r.tn = bench.benchmark_ontology_term_count := by
  intro r hr
  rw [get_confusion_matrix_dataframe_eq] at hr
  obtain ⟨p, hp, hr⟩ := List.mem_flatMap.mp hr
  obtain ⟨t, ht, rfl⟩ := List.mem_map.mp hr
  simp only [finalRow, scoreCell]
  push_cast
  ring

/-- Witness for C1 at a concrete row of the Scenario-A table. -/
theorem row_sum_invariant_witness :
    ((⟨"P1", 1, some "X", some 1, some "T", 1, 1, 1, 7⟩ : Row)
        ∈ get_confusion_matrix_dataframe predW benchW)
      ∧ (((1 : ℕ) : Int) + (1 : ℕ) + (1 : ℕ) + (7 : Int)
          = benchW.benchmark_ontology_term_count) :=
  ⟨by decide,
   row_sum_invariant predW benchW
     ⟨"P1", 1, some "X", some 1, some "T", 1, 1, 1, 7⟩ (by decide)⟩

/-- Claim C5: `calculate_confusion_matrix` returns exactly the cardinalities
of intersection and the two set differences, and its value on list inputs
(as converted by `set(...)`) is insensitive to element order and to
duplicates. -/
theorem calculate_confusion_matrix_spec (predicted benchmark : Finset String) :
    calculate_confusion_matrix predicted benchmark
        = { TP := (predicted ∩ benchmark).card
            FP := (predicted \ benchmark).card
            FN := (benchmark \ predicted).card }
      ∧ (∀ l₁ l₂ m₁ m₂ : List String, l₁.Perm l₂ → m₁.Perm m₂ →
          calculate_confusion_matrix l₁.toFinset m₁.toFinset
            = calculate_confusion_matrix l₂.toFinset m₂.toFinset)
      ∧ ∀ (x : String) (l m : List String),
          calculate_confusion_matrix (x :: x :: l).toFinset m.toFinset
            = calculate_confusion_matrix (x :: l).toFinset m.toFinset := by
  refine ⟨rfl, fun l₁ l₂ m₁ m₂ h₁ h₂ => ?_, fun x l m => ?_⟩
  · rw [List.toFinset_eq_of_perm l₁ l₂ h₁, List.toFinset_eq_of_perm m₁ m₂ h₂]
  · rw [List.toFinset_cons, List.toFinset_cons, Finset.insert_idem]

/-- Witness for C5 with concrete permuted and duplicated lists. -/
theorem calculate_confusion_matrix_spec_witness :
    List.Perm ["a", "b"] ["b", "a"] ∧ List.Perm ["c"] ["c"]
      ∧ calculate_confusion_matrix (["a", "b"] : List String).toFinset
          (["c"] : List String).toFinset
        = calculate_confusion_matrix (["b", "a"] : List String).toFinset
          (["c"] : List String).toFinset :=
  ⟨by decide, by decide,
   (calculate_confusion_matrix_spec ∅ ∅).2.1 ["a", "b"] ["b", "a"] ["c"] ["c"]
     (by decide) (by decide)⟩

/-- Claim C9: `get_confusion_matrix_dataframe` is a pure function of its two
dictionary inputs — identical inputs give identical tables. -/
theorem dataframe_deterministic (pred₁ pred₂ : PredictionDict)
    (bench₁ bench₂ : BenchmarkDict) (h₁ : pred₁ = pred₂) (h₂ : bench₁ = bench₂) :
    get_confusion_matrix_dataframe pred₁ bench₁
      = get_confusion_matrix_dataframe pred₂ bench₂ := by
  rw [h₁, h₂]

/-- Witness for C9 at the concrete Scenario-A input. -/
theorem dataframe_deterministic_witness :
    get_confusion_matrix_dataframe predW benchW
      = get_confusion_matrix_dataframe predW benchW :=
  dataframe_deterministic predW predW benchW benchW rfl rfl

/-- Claim C10: the three sets returned by `get_confusion_matrix_terms` are
pairwise disjoint, TP ∪ FP is the predicted set, TP ∪ FN is the benchmark
set, and in counts TP + FP = |predicted| and TP + FN = |benchmark|. -/
theorem confusion_terms_partition (p b : Finset String) :
    Disjoint (get_confusion_matrix_terms p b).TP (get_confusion_matrix_terms p b).FP
      ∧ Disjoint (get_confusion_matrix_terms p b).TP (get_confusion_matrix_terms p b).FN
      ∧ Disjoint (get_confusion_matrix_terms p b).FP (get_confusion_matrix_terms p b).FN
      ∧ (get_confusion_matrix_terms p b).TP ∪ (get_confusion_matrix_terms p b).FP = p
      ∧ (get_confusion_matrix_terms p b).TP ∪ (get_confusion_matrix_terms p b).FN = b
      ∧ (calculate_confusion_matrix p b).TP + (calculate_confusion_matrix p b).FP
          = p.card
      ∧ (calculate_confusion_matrix p b).TP + (calculate_confusion_matrix p b).FN
          = b.card := by
  refine ⟨?_, ?_, ?_, ?_, ?_, ?_, ?_⟩
  · exact (Finset.disjoint_sdiff_inter p b).symm
  · exact (Finset.sdiff_disjoint.mono_right Finset.inter_subset_left).symm
  · exact Finset.sdiff_disjoint.mono_right Finset.sdiff_subset
  · show p ∩ b ∪ p \ b = p
    rw [Finset.union_comm, Finset.sdiff_union_inter]
  · show p ∩ b ∪ b \ p = b
    rw [Finset.inter_comm, Finset.union_comm, Finset.sdiff_union_inter]
  · exact Finset.card_inter_add_card_sdiff p b
  · show (p ∩ b).card + (b \ p).card = b.card
    rw [Finset.inter_comm]
    exact Finset.card_inter_add_card_sdiff b p

end CAFA

namespace CAFA

lemma dictGet_isSome_of_mem_keys {α : Type} {d : List (String × α)} {k : String}
    (h : k ∈ d.map Prod.fst) : ∃ v, dictGet d k = some v := by
  obtain ⟨kv, hkv, rfl⟩ := List.mem_map.mp h
  have hs : (d.find? fun kv2 => kv2.1 == kv.1).isSome := by
    rw [List.find?_isSome]
    exact ⟨kv, hkv, by simp⟩
  obtain ⟨kv0, hkv0⟩ := Option.isSome_iff_exists.mp hs
  exact ⟨kv0.2, by rw [dictGet, hkv0]; rfl⟩

/-- Claim C2: the predicted-at-threshold set computed by the populator
contains exactly the term identifiers whose confidence score is greater than
or equal to the threshold (inclusive boundary). -/
theorem predicted_at_threshold_inclusive (scores : ScoreMap) (t : ℚ) (k : String)
    (h : (scores.map Prod.fst).Nodup) :
    k ∈ predicted_at scores t ↔ ∃ v, dictGet scores k = some v ∧ t ≤ v := by
  constructor
  · intro hk
    rw [predicted_at, List.mem_toFinset] at hk
    obtain ⟨kv, hkvf, hkv1⟩ := List.mem_map.mp hk
    rw [List.mem_filter] at hkvf
    obtain ⟨hkvmem, hkvge⟩ := hkvf
    have hge : t ≤ kv.2 := by simpa using hkvge
    have hs : (scores.find? fun kv2 => kv2.1 == k).isSome := by
      rw [List.find?_isSome]
      exact ⟨kv, hkvmem, by simp [hkv1]⟩
    obtain ⟨kv0, hkv0⟩ := Option.isSome_iff_exists.mp hs
    have hkv0mem := List.mem_of_find?_eq_some hkv0
    have hkv0k : kv0.1 = k := by simpa using List.find?_some hkv0
    have hkveq : kv = kv0 :=
      List.inj_on_of_nodup_map h hkvmem hkv0mem (hkv1.trans hkv0k.symm)
    refine ⟨kv0.2, ?_, ?_⟩
    · rw [dictGet, hkv0]
      rfl
    · rw [← hkveq]
      exact hge
  · rintro ⟨v, hv, htv⟩
    rw [dictGet] at hv
    obtain ⟨kv0, hkv0, hkv0v⟩ := Option.map_eq_some'.mp hv
    have hkv0mem := List.mem_of_find?_eq_some hkv0
    have hkv0k : kv0.1 = k := by simpa using List.find?_some hkv0
    rw [predicted_at, List.mem_toFinset]
    refine List.mem_map.mpr ⟨kv0, List.mem_filter.mpr ⟨hkv0mem, ?_⟩, hkv0k⟩
    simp only [ge_iff_le, decide_eq_true_eq]
    rw [hkv0v]
    exact htv

/-- Witness for C2: a score exactly at the threshold is predicted. -/
theorem predicted_at_threshold_inclusive_witness :
    ([("GO:1", (1 : ℚ))].map Prod.fst).Nodup
      ∧ ("GO:1" ∈ predicted_at [("GO:1", (1 : ℚ))] 1 ↔
          ∃ v, dictGet [("GO:1", (1 : ℚ))] "GO:1" = some v ∧ 1 ≤ v) :=
  ⟨by decide,
   predicted_at_threshold_inclusive [("GO:1", (1 : ℚ))] 1 "GO:1" (by decide)⟩

/-- Prediction input whose counts overflow the declared ontology size. -/
def predNeg : PredictionDict := [("P1", [("GO:1", 1)])]

/-- Benchmark input with `benchmark_ontology_term_count = 1`, smaller than
TP + FP + FN at threshold 1. -/
def benchNeg : BenchmarkDict :=
  { benchmark_ontology := some "X"
    benchmark_ontology_term_count := 1
    benchmark_taxon := some "T"
    benchmark_taxon_id := some 7227
    protein_annotations := [("P1", ["GO:2", "GO:3"])] }

/-- Claim C8: when TP + FP + FN exceeds `benchmark_ontology_term_count`, the
populator still produces the table (no error path exists) and the affected
cell carries a negative TN. -/
theorem negative_tn_unchecked :
    ∃ r ∈ get_confusion_matrix_dataframe predNeg benchNeg, r.tn < 0 := by decide

end CAFA

namespace CAFA

/-- Claim C3: the threshold list used by `get_confusion_matrix_dataframe` is
exactly the set of distinct confidence values appearing anywhere in the
prediction dictionary, sorted strictly ascending, and the produced table
carries rows for exactly these thresholds (each one at every benchmark
protein, and no others). -/
theorem distinct_thresholds_spec (pred : PredictionDict) (bench : BenchmarkDict) :
    List.Sorted (· < ·) (distinct_prediction_thresholds pred)
      ∧ (∀ t : ℚ, t ∈ distinct_prediction_thresholds pred ↔
          ∃ pm ∈ pred, ∃ kv ∈ pm.2, kv.2 = t)
      ∧ (∀ r ∈ get_confusion_matrix_dataframe pred bench,
          r.threshold ∈ distinct_prediction_thresholds pred)
      ∧ ∀ t ∈ distinct_prediction_thresholds pred,
          ∀ p ∈ bench.protein_annotations.map Prod.fst,
            ∃ r ∈ get_confusion_matrix_dataframe pred bench,
              r.protein = p ∧ r.threshold = t := by
  have hnodup : (distinct_prediction_thresholds pred).Nodup :=
    (List.perm_insertionSort (· ≤ ·)
      ((pred.flatMap fun protein => protein.2.map Prod.snd).dedup)).symm.nodup
      (List.nodup_dedup _)
  refine ⟨?_, ?_, ?_, ?_⟩
  · exact (List.sorted_insertionSort (· ≤ ·) _).lt_of_le hnodup
  · intro t
    rw [distinct_prediction_thresholds,
      (List.perm_insertionSort (· ≤ ·) _).mem_iff, List.mem_dedup,
      List.mem_flatMap]
    simp only [List.mem_map]
  · intro r hr
    rw [get_confusion_matrix_dataframe_eq] at hr
    obtain ⟨p, hp, hr⟩ := List.mem_flatMap.mp hr
    obtain ⟨t, ht, rfl⟩ := List.mem_map.mp hr
    exact ht
  · intro t ht p hp
    refine ⟨finalRow pred bench p t, ?_, rfl, rfl⟩
    rw [get_confusion_matrix_dataframe_eq]
    exact List.mem_flatMap.mpr ⟨p, hp, List.mem_map.mpr ⟨t, ht, rfl⟩⟩

/-- Witness for C3 at the concrete Scenario-A input and threshold 1. -/
theorem distinct_thresholds_spec_witness :
    List.Sorted (· < ·) (distinct_prediction_thresholds predW)
      ∧ ((1 : ℚ) ∈ distinct_prediction_thresholds predW ↔
          ∃ pm ∈ predW, ∃ kv ∈ pm.2, kv.2 = (1 : ℚ)) :=
  ⟨(distinct_thresholds_spec predW benchW).1,
   (distinct_thresholds_spec predW benchW).2.1 1⟩

/-- Claim C6: the initializer yields one zero row per (protein, threshold)
combination, P×T rows in total, protein-outer / threshold-inner, with unique
composite keys when the inputs are duplicate-free. -/
theorem initialize_dataframe_spec (proteins : List String) (thresholds : List ℚ)
    (hp : proteins.Nodup) (ht : thresholds.Nodup) :
    initialize_proteins_and_thresholds_dataframe proteins thresholds
        = proteins.flatMap (fun p => thresholds.map fun t =>
            { protein := p, threshold := t, tp := 0, fp := 0, fn := 0, tn := 0 })
      ∧ (initialize_proteins_and_thresholds_dataframe proteins thresholds).length
          = proteins.length * thresholds.length
      ∧ ((initialize_proteins_and_thresholds_dataframe proteins thresholds).map
            fun r => (r.protein, r.threshold)).Nodup
      ∧ ∀ r ∈ initialize_proteins_and_thresholds_dataframe proteins thresholds,
          r.tp = 0 ∧ r.fp = 0 ∧ r.fn = 0 ∧ r.tn = 0 := by
  refine ⟨initialize_eq_flatMap proteins thresholds, ?_, ?_, ?_⟩
  · rw [initialize_proteins_and_thresholds_dataframe, List.length_map,
      List.length_range]
  · rw [initialize_eq_flatMap, List.map_flatMap]
    have hinner : ∀ p : String,
        ((thresholds.map fun t =>
            ({ protein := p, threshold := t, tp := 0, fp := 0, fn := 0, tn := 0 } :
              InitRow)).map fun r => (r.protein, r.threshold))
          = thresholds.map fun t => (p, t) := by
      intro p
      rw [List.map_map]
      rfl
    rw [flatMap_congr fun p _ => hinner p]
    exact hp.product ht
  · intro r hr
    rw [initialize_eq_flatMap] at hr
    obtain ⟨p, hp2, hr⟩ := List.mem_flatMap.mp hr
    obtain ⟨t, ht2, rfl⟩ := List.mem_map.mp hr
    exact ⟨rfl, rfl, rfl, rfl⟩

/-- Witness for C6 on two proteins and two thresholds. -/
theorem initialize_dataframe_spec_witness :
    (["A", "B"] : List String).Nodup ∧ ([1, 2] : List ℚ).Nodup
      ∧ (initialize_proteins_and_thresholds_dataframe ["A", "B"] [1, 2]).length
          = 2 * 2 :=
  ⟨by decide, by decide,
   (initialize_dataframe_spec ["A", "B"] [1, 2] (by decide) (by decide)).2.1⟩

end CAFA

namespace CAFA

/-- Claim C4: a benchmark protein absent from the prediction dictionary is
scored with an empty predicted set at every threshold (TP = 0, FP = 0,
FN = size of its benchmark term set, TN = term count − FN); a protein absent
from the benchmark annotation mapping receives no rows at all. -/
theorem benchmark_only_scoring (pred : PredictionDict) (bench : BenchmarkDict)
    (p : String) (hmiss : dictGet pred p = none) :
    (∀ r ∈ get_confusion_matrix_dataframe pred bench, r.protein = p →
        ∃ terms, dictGet bench.protein_annotations p = some terms
          ∧ r.tp = 0 ∧ r.fp = 0 ∧ r.fn = terms.toFinset.card
          ∧ r.tn = bench.benchmark_ontology_term_count - terms.toFinset.card)
      ∧ ∀ q : String, dictGet bench.protein_annotations q = none →
          ∀ r ∈ get_confusion_matrix_dataframe pred bench, r.protein ≠ q := by
  constructor
  · intro r hr hpr
    rw [get_confusion_matrix_dataframe_eq] at hr
    obtain ⟨p', hp', hr⟩ := List.mem_flatMap.mp hr
    obtain ⟨t, ht, rfl⟩ := List.mem_map.mp hr
    have hpp : p' = p := hpr
    subst hpp
    obtain ⟨terms, hterms⟩ := dictGet_isSome_of_mem_keys hp'
    refine ⟨terms, hterms, ?_, ?_, ?_, ?_⟩ <;>
      simp [finalRow, scoreCell, hmiss, hterms, calculate_confusion_matrix,
        get_confusion_matrix_terms, predicted_at]
  · intro q hq r hr hcontra
    rw [get_confusion_matrix_dataframe_eq] at hr
    obtain ⟨p', hp', hr⟩ := List.mem_flatMap.mp hr
    obtain ⟨t, ht, rfl⟩ := List.mem_map.mp hr
    have hpq : p' = q := hcontra
    subst hpq
    obtain ⟨v, hv⟩ := dictGet_isSome_of_mem_keys hp'
    rw [hq] at hv
    cases hv

/-- The row produced for the benchmark-only protein of the witness input. -/
def rowP2 : Row := ⟨"P2", 1, some "X", some 1, some "T", 0, 0, 1, 9⟩

/-- Witness for C4: protein P2 is in the benchmark but not predicted. -/
theorem benchmark_only_scoring_witness :
    dictGet predW "P2" = none
      ∧ (rowP2 ∈ get_confusion_matrix_dataframe predW benchW)
      ∧ ∃ terms, dictGet benchW.protein_annotations "P2" = some terms
          ∧ rowP2.tp = 0 ∧ rowP2.fp = 0 ∧ rowP2.fn = terms.toFinset.card
          ∧ rowP2.tn = benchW.benchmark_ontology_term_count - terms.toFinset.card :=
  ⟨by decide, by decide,
   (benchmark_only_scoring predW benchW "P2" (by decide)).1 rowP2 (by decide)
     (by decide)⟩

lemma predicted_at_anti (scores : ScoreMap) {t t' : ℚ} (h : t ≤ t') :
    predicted_at scores t' ⊆ predicted_at scores t := by
  intro k hk
  rw [predicted_at, List.mem_toFinset] at hk
  rw [predicted_at, List.mem_toFinset]
  obtain ⟨kv, hkvf, hkv1⟩ := List.mem_map.mp hk
  rw [List.mem_filter] at hkvf
  refine List.mem_map.mpr ⟨kv, List.mem_filter.mpr ⟨hkvf.1, ?_⟩, hkv1⟩
  have h2 : t' ≤ kv.2 := by simpa using hkvf.2
  simp only [ge_iff_le, decide_eq_true_eq]
  exact h.trans h2

/-- Claim C7: for a fixed protein, along increasing thresholds the
predicted-at-threshold set shrinks (subset relation), hence FP is
non-increasing and FN is non-decreasing across the table's rows. -/
theorem threshold_monotonicity (pred : PredictionDict) (bench : BenchmarkDict)
    (r r' : Row) (hr : r ∈ get_confusion_matrix_dataframe pred bench)
    (hr' : r' ∈ get_confusion_matrix_dataframe pred bench)
    (hpp : r.protein = r'.protein) (hle : r.threshold ≤ r'.threshold) :
    predicted_at ((dictGet pred r.protein).getD []) r'.threshold
        ⊆ predicted_at ((dictGet pred r.protein).getD []) r.threshold
      ∧ r'.fp ≤ r.fp ∧ r.fn ≤ r'.fn := by
  rw [get_confusion_matrix_dataframe_eq] at hr hr'
  obtain ⟨p, hp, hr⟩ := List.mem_flatMap.mp hr
  obtain ⟨t, ht, rfl⟩ := List.mem_map.mp hr
  obtain ⟨p', hp2, hr'⟩ := List.mem_flatMap.mp hr'
  obtain ⟨t', ht', rfl⟩ := List.mem_map.mp hr'
  have hpe : p = p' := hpp
  subst hpe
  have hte : t ≤ t' := hle
  refine ⟨predicted_at_anti _ hte, ?_, ?_⟩
  · show (predicted_at ((dictGet pred p).getD []) t'
        \ ((dictGet bench.protein_annotations p).getD []).toFinset).card
      ≤ (predicted_at ((dictGet pred p).getD []) t
        \ ((dictGet bench.protein_annotations p).getD []).toFinset).card
    exact Finset.card_le_card
      (Finset.sdiff_subset_sdiff (predicted_at_anti _ hte) (Finset.Subset.refl _))
  · show (((dictGet bench.protein_annotations p).getD []).toFinset
        \ predicted_at ((dictGet pred p).getD []) t).card
      ≤ (((dictGet bench.protein_annotations p).getD []).toFinset
        \ predicted_at ((dictGet pred p).getD []) t').card
    exact Finset.card_le_card
      (Finset.sdiff_subset_sdiff (Finset.Subset.refl _) (predicted_at_anti _ hte))

/-- Witness for C7 on the two Scenario-A rows of protein P1. -/
theorem threshold_monotonicity_witness :
    ((⟨"P1", 1, some "X", some 1, some "T", 1, 1, 1, 7⟩ : Row)
        ∈ get_confusion_matrix_dataframe predW benchW)
      ∧ ((⟨"P1", 2, some "X", some 1, some "T", 0, 1, 2, 7⟩ : Row)
          ∈ get_confusion_matrix_dataframe predW benchW)
      ∧ predicted_at ((dictGet predW "P1").getD []) 2
          ⊆ predicted_at ((dictGet predW "P1").getD []) 1
      ∧ (1 : ℕ) ≤ 1 ∧ (1 : ℕ) ≤ 2 :=
  ⟨by decide, by decide,
   (threshold_monotonicity predW benchW
      ⟨"P1", 1, some "X", some 1, some "T", 1, 1, 1, 7⟩
      ⟨"P1", 2, some "X", some 1, some "T", 0, 1, 2, 7⟩
      (by decide) (by decide) (by decide) (by decide)).1,
   ((threshold_monotonicity predW benchW
      ⟨"P1", 1, some "X", some 1, some "T", 1, 1, 1, 7⟩
      ⟨"P1", 2, some "X", some 1, some "T", 0, 1, 2, 7⟩
      (by decide) (by decide) (by decide) (by decide)).2.1 : (1 : ℕ) ≤ 1),
   ((threshold_monotonicity predW benchW
      ⟨"P1", 1, some "X", some 1, some "T", 1, 1, 1, 7⟩
      ⟨"P1", 2, some "X", some 1, some "T", 0, 1, 2, 7⟩
      (by decide) (by decide) (by decide) (by decide)).2.2 : (1 : ℕ) ≤ 2)⟩

end CAFA
